import Mathlib

/-!
Verification of the `aig` repository (Go): layer composition, fingerprint
hashing, Dockerfile generation, tag calculation, the build/run orchestration
in `pkg/docker`, and the layer registry and CLI assembly loop in `pkg/layers`
and `cmd`.

Go strings are UTF-8 byte sequences; we model them as Lean `String` and
convert to bytes (`List Nat`, each < 256) where the code hashes them.
Machine words are `Nat` reduced `% 2^32` (SHA-256 state) or `% 256` (bytes).
-/

/-- Bytes of the UTF-8 encoding of one character (RFC 3629), as Go lays out
its strings in memory. -/
def utf8Bytes (c : Char) : List Nat :=
  let n := c.toNat
  if n < 128 then [n]
  else if n < 2048 then [192 + n / 64, 128 + n % 64]
  else if n < 65536 then [224 + n / 4096, 128 + (n / 64) % 64, 128 + n % 64]
  else [240 + n / 262144, 128 + (n / 4096) % 64, 128 + (n / 64) % 64, 128 + n % 64]

/-- The byte sequence of a Go string. -/
def strBytes (s : String) : List Nat := s.data.flatMap utf8Bytes

/-- Go `strings.Join(elems, sep)`. -/
def goJoin (elems : List String) (sep : String) : String :=
  match elems with
  | [] => ""
  | e :: rest => rest.foldl (fun acc x => acc ++ sep ++ x) e

/-- Go `strings.Split(s, sep)` for a one-character separator: splits around
every occurrence of the separator (modelled on the character list). -/
def goSplitChar (sep : Char) : List Char → List (List Char)
  | [] => [[]]
  | c :: cs =>
    if c = sep then [] :: goSplitChar sep cs
    else match goSplitChar sep cs with
      | [] => [[c]]
      | p :: ps => (c :: p) :: ps

/-- Go `strings.Split(s, ":")` as a `String` operation. -/
def goSplitColon (s : String) : List String :=
  (goSplitChar ':' s.data).map List.asString

/-- Go `strings.Contains(s, sub)` for a one-character substring. -/
def goContainsChar (s : String) (c : Char) : Bool := s.data.contains c

/-- Go `strings.HasPrefix(s, pre)`. -/
def goHasPrefix (s p : String) : Bool := p.data.isPrefixOf s.data

/-- Go `strings.TrimSpace(s)`: strip leading and trailing whitespace. -/
def goTrimSpace (s : String) : String :=
  ((s.data.dropWhile Char.isWhitespace).reverse.dropWhile Char.isWhitespace).reverse.asString

/-! ## SHA-256 (FIPS 180-4), as used by Go `crypto/sha256`

Words are `Nat` kept below `2^32` by explicit reduction. -/

/-- Addition modulo `2^32`. -/
def add32 (a b : Nat) : Nat := (a + b) % 4294967296

/-- Right rotation of a 32-bit word by `n` places. -/
def rotr32 (n x : Nat) : Nat := ((x >>> n) ||| (x <<< (32 - n))) % 4294967296

/-- FIPS 180-4 `Σ₀`. -/
def bsig0 (x : Nat) : Nat := rotr32 2 x ^^^ rotr32 13 x ^^^ rotr32 22 x

/-- FIPS 180-4 `Σ₁`. -/
def bsig1 (x : Nat) : Nat := rotr32 6 x ^^^ rotr32 11 x ^^^ rotr32 25 x

/-- FIPS 180-4 `σ₀`. -/
def ssig0 (x : Nat) : Nat := rotr32 7 x ^^^ rotr32 18 x ^^^ (x >>> 3)

/-- FIPS 180-4 `σ₁`. -/
def ssig1 (x : Nat) : Nat := rotr32 17 x ^^^ rotr32 19 x ^^^ (x >>> 10)

/-- FIPS 180-4 `Ch(x,y,z)`; `¬x` is complement within 32 bits. -/
def ch32 (x y z : Nat) : Nat := (x &&& y) ^^^ ((x ^^^ 4294967295) &&& z)

/-- FIPS 180-4 `Maj(x,y,z)`. -/
def maj32 (x y z : Nat) : Nat := (x &&& y) ^^^ (x &&& z) ^^^ (y &&& z)

/-- The 64 SHA-256 round constants. -/
def sha256K : List Nat :=
  [1116352408, 1899447441, 3049323471, 3921009573, 961987163,
   1508970993, 2453635748, 2870763221, 3624381080, 310598401,
   607225278, 1426881987, 1925078388, 2162078206, 2614888103,
   3248222580, 3835390401, 4022224774, 264347078, 604807628,
   770255983, 1249150122, 1555081692, 1996064986, 2554220882,
   2821834349, 2952996808, 3210313671, 3336571891, 3584528711,
   113926993, 338241895, 666307205, 773529912, 1294757372,
   1396182291, 1695183700, 1986661051, 2177026350, 2456956037,
   2730485921, 2820302411, 3259730800, 3345764771, 3516065817,
   3600352804, 4094571909, 275423344, 430227734, 506948616,
   659060556, 883997877, 958139571, 1322822218, 1537002063,
   1747873779, 1955562222, 2024104815, 2227730452, 2361852424,
   2428436474, 2756734187, 3204031479, 3329325298]

/-- The eight 32-bit working registers of SHA-256. -/
structure Sha256State where
  a : Nat
  b : Nat
  c : Nat
  d : Nat
  e : Nat
  f : Nat
  g : Nat
  h : Nat
deriving DecidableEq

/-- The SHA-256 initial hash value. -/
def sha256Init : Sha256State :=
  ⟨1779033703, 3144134277, 1013904242, 2773480762,
   1359893119, 2600822924, 528734635, 1541459225⟩

/-- Big-endian 32-bit word number `t` of a 64-byte block. -/
def wordAt (block : List Nat) (t : Nat) : Nat :=
  (block.getD (4 * t) 0) <<< 24 ||| (block.getD (4 * t + 1) 0) <<< 16 |||
    (block.getD (4 * t + 2) 0) <<< 8 ||| block.getD (4 * t + 3) 0

/-- Append the next word of the message schedule. -/
def nextW (w : List Nat) : List Nat :=
  let n := w.length
  w ++ [add32 (add32 (ssig1 (w.getD (n - 2) 0)) (w.getD (n - 7) 0))
              (add32 (ssig0 (w.getD (n - 15) 0)) (w.getD (n - 16) 0))]

/-- The 64-entry message schedule of one block. -/
def schedule (block : List Nat) : List Nat :=
  (List.range 48).foldl (fun w _ => nextW w) ((List.range 16).map (wordAt block))

/-- One SHA-256 compression round; `kw` is the pair of round constant and
schedule word. -/
def sha256Round (s : Sha256State) (kw : Nat × Nat) : Sha256State :=
  let t1 := add32 s.h (add32 (bsig1 s.e) (add32 (ch32 s.e s.f s.g) (add32 kw.1 kw.2)))
  let t2 := add32 (bsig0 s.a) (maj32 s.a s.b s.c)
  ⟨add32 t1 t2, s.a, s.b, s.c, add32 s.d t1, s.e, s.f, s.g⟩

/-- Process one 64-byte block. -/
def compress (st : Sha256State) (block : List Nat) : Sha256State :=
  let r := (sha256K.zip (schedule block)).foldl sha256Round st
  ⟨add32 st.a r.a, add32 st.b r.b, add32 st.c r.c, add32 st.d r.d,
   add32 st.e r.e, add32 st.f r.f, add32 st.g r.g, add32 st.h r.h⟩

/-- The 8-byte big-endian encoding of the 64-bit message bit length. -/
def lenBytes64 (n : Nat) : List Nat :=
  [(n >>> 56) % 256, (n >>> 48) % 256, (n >>> 40) % 256, (n >>> 32) % 256,
   (n >>> 24) % 256, (n >>> 16) % 256, (n >>> 8) % 256, n % 256]

/-- SHA-256 padding: `0x80`, zeros to 56 mod 64, then the bit length. -/
def sha256Pad (msg : List Nat) : List Nat :=
  msg ++ [128] ++ List.replicate ((119 - msg.length % 64) % 64) 0 ++
    lenBytes64 ((8 * msg.length) % 18446744073709551616)

/-- Split a byte list into its 64-byte blocks; the fuel bounds the number of
blocks and is structurally decreasing (any fuel at least the list's length is
enough, since each step consumes 64 bytes). -/
def toBlocksFuel : Nat → List Nat → List (List Nat)
  | 0, _ => []
  | _, [] => []
  | n + 1, bs => bs.take 64 :: toBlocksFuel n (bs.drop 64)

/-- Split a byte list into its 64-byte blocks. -/
def toBlocks (bs : List Nat) : List (List Nat) := toBlocksFuel bs.length bs

/-- Big-endian byte serialization of one 32-bit word. -/
def wordBytes (w : Nat) : List Nat :=
  [(w >>> 24) % 256, (w >>> 16) % 256, (w >>> 8) % 256, w % 256]

/-- The 32-byte digest read off the final state. -/
def stateBytes (s : Sha256State) : List Nat :=
  wordBytes s.a ++ wordBytes s.b ++ wordBytes s.c ++ wordBytes s.d ++
    wordBytes s.e ++ wordBytes s.f ++ wordBytes s.g ++ wordBytes s.h

/-- SHA-256 of a byte sequence. -/
def sha256 (msg : List Nat) : List Nat :=
  stateBytes ((toBlocks (sha256Pad msg)).foldl compress sha256Init)

/-- One lowercase hexadecimal digit. -/
def hexDigit (n : Nat) : Char :=
  if n < 10 then Char.ofNat (48 + n) else Char.ofNat (87 + n)

/-- The two lowercase hex digits of one byte. -/
def hexByte (b : Nat) : List Char := [hexDigit (b / 16), hexDigit (b % 16)]

/-- Go `fmt.Sprintf("%x", bytes)`: lowercase hex, two digits per byte. -/
def bytesToHex (bs : List Nat) : String := ⟨bs.flatMap hexByte⟩

/-- `pkg/layers.hashString`: hex-encoded SHA-256 of the string's bytes. -/
def hashString (s : String) : String := bytesToHex (sha256 (strBytes s))


/-! ## `pkg/layers/layers.go`: the five layer variants -/

/-- The `Layer` interface with its five implementations, as a sum type. -/
inductive Layer where
  | base (image : String) (volumes ports : List String)
  | dependency (name : String) (pkgs volumes ports : List String)
  | custom (name : String) (commands volumes ports : List String)
  | top (name binaryURL binaryPath : String) (volumes ports : List String)
  | customTop (name : String) (commands entry : List String) (hashKey : String)
deriving DecidableEq

/-- `GetName` of each variant. -/
def Layer.GetName : Layer → String
  | .base _ _ _ => "base"
  | .dependency n _ _ _ => n
  | .custom n _ _ _ => n
  | .top n _ _ _ _ => n
  | .customTop n _ _ _ => n

/-- `GetCommands` of each variant. -/
def Layer.GetCommands : Layer → List String
  | .base image _ _ => ["FROM " ++ image]
  | .dependency _ pkgs _ _ =>
      ["RUN apt-get update && apt-get install -y " ++ goJoin pkgs " " ++
         " && rm -rf /var/lib/apt/lists/*"]
  | .custom _ commands _ _ => commands
  | .top _ binaryURL binaryPath _ _ =>
      (if goHasPrefix binaryURL "http" then ["ADD " ++ binaryURL ++ " " ++ binaryPath]
       else ["COPY " ++ binaryURL ++ " " ++ binaryPath]) ++
        ["RUN chmod +x " ++ binaryPath, "ENTRYPOINT [\"" ++ binaryPath ++ "\"]"]
  | .customTop _ commands entry _ =>
      commands ++
        (if entry.length > 0 then ["ENTRYPOINT [\"" ++ goJoin entry "\", \"" ++ "\"]"]
         else [])

/-- The string each variant's `GetHash` passes to `hashString`. -/
def Layer.hashInput : Layer → String
  | .base image volumes ports =>
      image ++ goJoin volumes "," ++ goJoin ports ","
  | .dependency _ pkgs volumes ports =>
      goJoin pkgs "," ++ goJoin volumes "," ++ goJoin ports ","
  | .custom n commands volumes ports =>
      n ++ goJoin commands "" ++ goJoin volumes "" ++ goJoin ports ""
  | .top _ binaryURL binaryPath volumes ports =>
      binaryURL ++ ":" ++ binaryPath ++ goJoin volumes "," ++ goJoin ports ","
  | .customTop n commands entry hashKey =>
      n ++ hashKey ++ goJoin commands "" ++ goJoin entry ""

/-- `GetHash` of each variant: `hashString` of its content string. -/
def Layer.GetHash (l : Layer) : String := hashString l.hashInput

/-- `GetVolumes` of each variant (`CustomTopLayer` returns nil). -/
def Layer.GetVolumes : Layer → List String
  | .base _ volumes _ => volumes
  | .dependency _ _ volumes _ => volumes
  | .custom _ _ volumes _ => volumes
  | .top _ _ _ volumes _ => volumes
  | .customTop _ _ _ _ => []

/-- `GetPorts` of each variant (`CustomTopLayer` returns nil). -/
def Layer.GetPorts : Layer → List String
  | .base _ _ ports => ports
  | .dependency _ _ _ ports => ports
  | .custom _ _ _ ports => ports
  | .top _ _ _ _ ports => ports
  | .customTop _ _ _ _ => []

/-! ## `pkg/layers`: the registry -/

/-- `layers.Register`: insert into the name-to-layer map. The map is modelled
as an insertion list read from the front, so the newest entry for a name wins,
matching Go map overwrite (last-write-wins). -/
def Register (reg : List (String × Layer)) (l : Layer) : List (String × Layer) :=
  (l.GetName, l) :: reg

/-- `layers.Get`: look a layer up by name, or fail with the registry's
not-found error. -/
def Get (reg : List (String × Layer)) (name : String) : Except String Layer :=
  match reg.lookup name with
  | some l => .ok l
  | none => .error ("layer " ++ name ++ " not found")

/-- The registry populated by the `init()` of `pkg/layers`. -/
def defaultRegistry : List (String × Layer) :=
  [Layer.dependency "python" ["python3", "python3-pip"] [] [],
   Layer.dependency "node" ["nodejs", "npm"] [] [],
   Layer.dependency "go" ["golang"] [] [],
   Layer.dependency "nginx" ["nginx"] [] ["80"],
   Layer.custom "node-pnpm"
     ["RUN apt-get update && apt-get install -y nodejs npm && rm -rf /var/lib/apt/lists/*",
      "RUN npm install -g pnpm"] [] [],
   Layer.customTop "opencode"
     ["RUN apt-get update && apt-get install -y nodejs npm && rm -rf /var/lib/apt/lists/*",
      "RUN npm install -g pnpm",
      "RUN pnpm add -g opencode-ai"]
     ["opencode"] "v1.1.59",
   Layer.top "hello-world"
     "https://github.com/docker-library/hello-world/raw/master/hello" "/hello" [] []
  ].foldl Register []

/-! ## `pkg/docker`: port parsing, tag and Dockerfile, orchestration -/

/-- The exposed-port set (`nat.PortSet`) and port-binding map (`nat.PortMap`)
that `runContainer` builds, modelled as insertion sequences; a binding pairs a
container port with its host port (host IP is fixed to `0.0.0.0`). -/
structure PortConfig where
  exposedPorts : List String
  portBindings : List (String × String)
deriving DecidableEq

/-- The body of `runContainer`'s port loop for one port spec: the exposed
container port (protocol defaulted to `/tcp`) and the optional host port. -/
def parsePortSpec (p : String) : String × Option String :=
  let parts := goSplitColon p
  let hostPort := if parts.length = 2 then parts.getD 0 "" else ""
  let containerPort := if parts.length = 2 then parts.getD 1 "" else parts.getD 0 ""
  let containerPort :=
    if goContainsChar containerPort '/' then containerPort else containerPort ++ "/tcp"
  (containerPort, if hostPort ≠ "" then some hostPort else none)

/-- The port maps `runContainer` accumulates over its port-spec list. -/
def buildPortMaps (ports : List String) : PortConfig :=
  ports.foldl
    (fun cfg p =>
      let parsed := parsePortSpec p
      { exposedPorts := cfg.exposedPorts ++ [parsed.1],
        portBindings :=
          match parsed.2 with
          | some hostPort => cfg.portBindings ++ [(parsed.1, hostPort)]
          | none => cfg.portBindings })
    ⟨[], []⟩

/-- An error from the Docker client: the class `client.IsErrNotFound`
recognises, or any other error. -/
inductive DockerErr where
  | notFound
  | other (msg : String)
deriving DecidableEq

/-- `client.IsErrNotFound`. -/
def isErrNotFound : DockerErr → Bool
  | .notFound => true
  | .other _ => false

/-- `imageExists`, given the outcome of `ImageInspectWithRaw` (`none` means
the inspect succeeded): a not-found error is `(false, nil)`, any other error
propagates, success is `(true, nil)`. -/
def imageExists (inspectRes : Option DockerErr) : Except DockerErr Bool :=
  match inspectRes with
  | some err => if isErrNotFound err then .ok false else .error err
  | none => .ok true

/-- The engine collaborator: each field is the outcome one Docker client call
would return (`none` is success for calls that only return an error;
`containerCreate` returns the new container id). -/
structure Engine where
  inspectImage : String → Option DockerErr
  imageBuild : String → String → Option DockerErr
  containerCreate : String → PortConfig → List String → Except DockerErr String
  containerStart : String → Option DockerErr
  containerWait : String → Except DockerErr Nat
  containerLogs : String → Option DockerErr

/-- One engine call, recorded in order of invocation. -/
inductive Call where
  | inspect (name : String)
  | build (name : String)
  | create (image : String)
  | start (id : String)
  | wait (id : String)
  | logs (id : String)
deriving DecidableEq

/-- `generateDockerfile`: write every command of the base layer, then of each
selected layer in order, each followed by a newline, into a string builder. -/
def generateDockerfile (base : Layer) (selected : List Layer) : String :=
  let sb := base.GetCommands.foldl (fun sb cmd => sb ++ cmd ++ "\n") ""
  selected.foldl (fun sb l => l.GetCommands.foldl (fun sb cmd => sb ++ cmd ++ "\n") sb) sb

/-- A running `sha256.New()` hash: `write` appends bytes, `sum` digests
everything written so far — the semantics of Go's streaming `hash.Hash`. -/
structure HashState where
  written : List Nat

/-- `h.Write(bs)`. -/
def HashState.write (h : HashState) (bs : List Nat) : HashState := ⟨h.written ++ bs⟩

/-- `h.Sum(nil)`. -/
def HashState.sum (h : HashState) : List Nat := sha256 h.written

/-- Go slicing `s[:n]` (the sliced strings here are ASCII hex output, where
byte indexing and character indexing agree). -/
def strTake (s : String) (n : Nat) : String := ⟨s.data.take n⟩

/-- `calculateTag`: write the base fingerprint, then each selected layer's
fingerprint, into one running hash; hex-encode and keep 12 characters. -/
def calculateTag (base : Layer) (selected : List Layer) : String :=
  let h := HashState.write ⟨[]⟩ (strBytes base.GetHash)
  let h := selected.foldl (fun h l => HashState.write h (strBytes l.GetHash)) h
  strTake (bytesToHex h.sum) 12

/-- `runContainer`: create the container with the port maps and volume binds,
start it, then wait for exit while streaming logs; a logs error is non-fatal
and the outcome is the wait outcome. Returns the engine calls made and the
result. -/
def runContainer (eng : Engine) (imageName : String) (volumes ports : List String) :
    List Call × Except DockerErr Unit :=
  let cfg := buildPortMaps ports
  match eng.containerCreate imageName cfg volumes with
  | .error e => ([.create imageName], .error e)
  | .ok cid =>
    match eng.containerStart cid with
    | some e => ([.create imageName, .start cid], .error e)
    | none =>
      let calls := [Call.create imageName, Call.start cid, Call.wait cid, Call.logs cid]
      match eng.containerWait cid with
      | .error e => (calls, .error e)
      | .ok _ => (calls, .ok ())

/-- `BuildAndRun`: generate the Dockerfile, compute the tag, merge volumes and
ports, short-circuit the build when the image exists, build otherwise, then
run. Returns the engine calls made and the result. -/
def BuildAndRun (eng : Engine) (base : Layer) (selectedLayers : List Layer) :
    List Call × Except DockerErr Unit :=
  let dockerfile := generateDockerfile base selectedLayers
  let tag := calculateTag base selectedLayers
  let imageName := "aig-image:" ++ tag
  let volumes := base.GetVolumes ++ selectedLayers.flatMap Layer.GetVolumes
  let ports := base.GetPorts ++ selectedLayers.flatMap Layer.GetPorts
  match imageExists (eng.inspectImage imageName) with
  | .error e => ([Call.inspect imageName], .error e)
  | .ok ex =>
    if ex then
      let run := runContainer eng imageName volumes ports
      (Call.inspect imageName :: run.1, run.2)
    else
      match eng.imageBuild dockerfile imageName with
      | some e => ([Call.inspect imageName, Call.build imageName], .error e)
      | none =>
        let run := runContainer eng imageName volumes ports
        (Call.inspect imageName :: Call.build imageName :: run.1, run.2)

/-! ## `cmd`: the `run` command -/

/-- Error taxonomy of one `run` invocation: a layer-resolution error from the
registry, or an engine error from the Docker client. -/
inductive RunError where
  | resolution (msg : String)
  | engine (e : DockerErr)
deriving DecidableEq

/-- The layer-resolution loop of `runCmd.RunE`: resolve each name via `Get`
after `strings.TrimSpace`, returning at the first failure. -/
def resolveLayers (reg : List (String × Layer)) : List String → Except String (List Layer)
  | [] => .ok []
  | n :: rest =>
    match Get reg (goTrimSpace n) with
    | .error e => .error e
    | .ok l =>
      match resolveLayers reg rest with
      | .error e => .error e
      | .ok ls => .ok (l :: ls)

/-- `runCmd.RunE`: build the base layer from the flags, resolve the selected
layers and the optional top layer, then call `BuildAndRun`. Returns the
engine calls made and the result. -/
def runE (eng : Engine) (reg : List (String × Layer)) (baseImage : String)
    (layerNames : List String) (topLayerName : String)
    (volumes ports : List String) : List Call × Except RunError Unit :=
  let base := Layer.base baseImage volumes ports
  match resolveLayers reg layerNames with
  | .error e => ([], .error (.resolution e))
  | .ok selected =>
    let withTop : Except String (List Layer) :=
      if topLayerName ≠ "" then
        match Get reg topLayerName with
        | .error e => .error e
        | .ok t => .ok (selected ++ [t])
      else .ok selected
    match withTop with
    | .error e => ([], .error (.resolution e))
    | .ok selectedLayers =>
      let run := BuildAndRun eng base selectedLayers
      (run.1, run.2.mapError RunError.engine)

/-! ## Spec-side definitions (for the refinement claims) -/

/-- Modelled from the spec: "the computed tag equals the first 12 characters
of the lowercase hex SHA-256 digest of the concatenation of the layers'
fingerprints fed in stack order (base first, then each selected layer)". -/
def tagSpec (base : Layer) (selected : List Layer) : String :=
  strTake (bytesToHex (sha256 (strBytes (String.join ((base :: selected).map Layer.GetHash))))) 12

/-- Modelled from the spec: "the concatenation, in stack order, of every
layer's instructions, each instruction followed by exactly one newline". -/
def dockerfileSpec (base : Layer) (selected : List Layer) : String :=
  String.join (((base :: selected).flatMap Layer.GetCommands).map (fun c => c ++ "\n"))

/-! ## Concrete engines (for witnesses) -/

/-- An engine whose every call succeeds; in particular the image inspect
succeeds, so every image is considered cached. -/
def engFound : Engine :=
  ⟨fun _ => none, fun _ _ => none, fun _ _ _ => .ok "cid0", fun _ => none,
   fun _ => .ok 0, fun _ => none⟩

/-- An engine whose image inspect reports not-found (a cache miss) and whose
other calls succeed. -/
def engMiss : Engine :=
  ⟨fun _ => some .notFound, fun _ _ => none, fun _ _ _ => .ok "cid0", fun _ => none,
   fun _ => .ok 0, fun _ => none⟩

/-- An engine whose image inspect fails with a non-not-found error. -/
def engInspectFail : Engine :=
  ⟨fun _ => some (.other "transport down"), fun _ _ => none, fun _ _ _ => .ok "cid0",
   fun _ => none, fun _ => .ok 0, fun _ => none⟩

/-! ## Helper lemmas -/

theorem strBytes_append (a b : String) : strBytes (a ++ b) = strBytes a ++ strBytes b := by
  simp [strBytes, String.data_append, List.flatMap_append]

theorem foldl_append_data (xs : List String) (s : String) :
    (xs.foldl (fun r x => r ++ x) s).data = s.data ++ (xs.map String.data).flatten := by
  induction xs generalizing s with
  | nil => simp
  | cons x xs ih => simp [ih, String.data_append, List.append_assoc]

theorem join_data (xs : List String) : (String.join xs).data = (xs.map String.data).flatten := by
  show (xs.foldl (fun r s => r ++ s) "").data = _
  rw [foldl_append_data]
  rfl

theorem flatten_flatMap {α β : Type} (L : List (List α)) (f : α → List β) :
    L.flatten.flatMap f = (L.map (fun l => l.flatMap f)).flatten := by
  induction L with
  | nil => rfl
  | cons l L ih => simp [List.flatMap_append, ih]

theorem strBytes_join (xs : List String) :
    strBytes (String.join xs) = (xs.map strBytes).flatten := by
  show (String.join xs).data.flatMap utf8Bytes = _
  rw [join_data, flatten_flatMap, List.map_map]
  rfl

theorem foldl_write_written (sel : List Layer) (d : List Nat) :
    (sel.foldl (fun h l => HashState.write h (strBytes l.GetHash)) ⟨d⟩).written =
      d ++ (sel.map (fun l => strBytes l.GetHash)).flatten := by
  induction sel generalizing d with
  | nil => simp
  | cons l sel ih =>
    rw [List.foldl_cons]
    show (List.foldl _ (⟨d ++ strBytes l.GetHash⟩ : HashState) sel).written = _
    rw [ih, List.map_cons, List.flatten_cons, List.append_assoc]

theorem sha256_length (msg : List Nat) : (sha256 msg).length = 32 := by
  simp [sha256, stateBytes, wordBytes]

theorem wordBytes_mem_lt (w : Nat) : ∀ b ∈ wordBytes w, b < 256 := by
  intro b hb
  simp [wordBytes] at hb
  rcases hb with rfl | rfl | rfl | rfl <;> exact Nat.mod_lt _ (by norm_num)

theorem sha256_mem_lt (msg : List Nat) : ∀ b ∈ sha256 msg, b < 256 := by
  intro b hb
  simp only [sha256, stateBytes, List.mem_append] at hb
  rcases hb with ((((((h | h) | h) | h) | h) | h) | h) | h <;> exact wordBytes_mem_lt _ _ h

theorem flatMap_hexByte_length (bs : List Nat) : (bs.flatMap hexByte).length = 2 * bs.length := by
  induction bs with
  | nil => rfl
  | cons b bs ih => simp [hexByte, ih]; omega

theorem hexDigit_mem_hexChars : ∀ n, n < 16 → hexDigit n ∈ ("0123456789abcdef").data := by decide

theorem bytesToHex_mem (bs : List Nat) (hlt : ∀ b ∈ bs, b < 256) :
    ∀ c ∈ (bytesToHex bs).data, c ∈ ("0123456789abcdef").data := by
  intro c hc
  rw [show (bytesToHex bs).data = bs.flatMap hexByte from rfl, List.mem_flatMap] at hc
  obtain ⟨b, hb, hcb⟩ := hc
  have hb256 := hlt b hb
  simp [hexByte] at hcb
  rcases hcb with rfl | rfl
  · exact hexDigit_mem_hexChars _ (by omega)
  · exact hexDigit_mem_hexChars _ (by omega)

/-- C1: for every stack, the computed tag equals the first 12 characters of
the lowercase hex SHA-256 digest of the concatenation of the layers'
fingerprints fed in stack order (base first, then each selected layer) into
one running hash; in particular the tag is exactly 12 lowercase hex
characters. -/
theorem calculateTag_correct (base : Layer) (selected : List Layer) :
    calculateTag base selected = tagSpec base selected ∧
    (calculateTag base selected).length = 12 ∧
    ∀ c ∈ (calculateTag base selected).data, c ∈ ("0123456789abcdef").data := by
  have hinput : (selected.foldl (fun h l => HashState.write h (strBytes l.GetHash))
      (HashState.write ⟨[]⟩ (strBytes base.GetHash))).written =
      strBytes (String.join ((base :: selected).map Layer.GetHash)) := by
    rw [strBytes_join]
    show (selected.foldl _ (⟨[] ++ strBytes base.GetHash⟩ : HashState)).written = _
    rw [foldl_write_written]
    simp [List.map_map]
    rfl
  refine ⟨?_, ?_, ?_⟩
  · simp only [calculateTag, tagSpec, HashState.sum, hinput]
  · show ((bytesToHex (sha256 _)).data.take 12).length = 12
    rw [List.length_take]
    rw [show (bytesToHex (sha256 ((selected.foldl (fun h l => HashState.write h (strBytes l.GetHash)) (HashState.write ⟨[]⟩ (strBytes base.GetHash))).written))).data = (sha256 ((selected.foldl (fun h l => HashState.write h (strBytes l.GetHash)) (HashState.write ⟨[]⟩ (strBytes base.GetHash))).written)).flatMap hexByte from rfl]
    rw [flatMap_hexByte_length, sha256_length]
    omega
  · intro c hc
    have hc' : c ∈ (bytesToHex (sha256 ((selected.foldl (fun h l => HashState.write h (strBytes l.GetHash)) (HashState.write ⟨[]⟩ (strBytes base.GetHash))).written))).data :=
      List.mem_of_mem_take hc
    exact bytesToHex_mem _ (sha256_mem_lt _) c hc'

theorem foldl_newline_data (cmds : List String) (s : String) :
    (cmds.foldl (fun sb cmd => sb ++ cmd ++ "\n") s).data =
      s.data ++ ((cmds.map (fun c => c ++ "\n")).map String.data).flatten := by
  induction cmds generalizing s with
  | nil => simp
  | cons c cmds ih => simp [ih, String.data_append, List.append_assoc]

theorem foldl_layers_data (ls : List Layer) (s : String) :
    (ls.foldl (fun sb l => l.GetCommands.foldl (fun sb cmd => sb ++ cmd ++ "\n") sb) s).data =
      s.data ++ (((ls.flatMap Layer.GetCommands).map (fun c => c ++ "\n")).map String.data).flatten := by
  induction ls generalizing s with
  | nil => simp
  | cons l ls ih =>
    rw [List.foldl_cons, ih, foldl_newline_data]
    simp [List.flatMap_cons, List.append_assoc]

/-- C8: the generated Dockerfile text equals the concatenation, in stack order
(base first, then each selected layer in order), of every layer's
instructions, each followed by exactly one newline — with no reordering,
deduplication, or validation; the generator is a pure function of the layer
sequence. -/
theorem generateDockerfile_correct (base : Layer) (selected : List Layer) :
    generateDockerfile base selected = dockerfileSpec base selected := by
  apply String.ext
  simp only [generateDockerfile, dockerfileSpec]
  rw [foldl_layers_data, foldl_newline_data, join_data]
  simp [List.flatMap_cons, List.append_assoc]

theorem getHash_data_length (l : Layer) : l.GetHash.data.length = 64 := by
  show ((sha256 (strBytes l.hashInput)).flatMap hexByte).length = 64
  rw [flatMap_hexByte_length, sha256_length]

/-- C3 counterexample: two `CustomLayer`s that differ only in their name have
different fingerprints — `CustomLayer.GetHash` folds the name in. -/
theorem custom_fingerprint_uses_name_cex :
    (Layer.custom "a" [] [] []).GetHash ≠ (Layer.custom "b" [] [] []).GetHash := by decide

/-- C3 (amended): for the Dependency and Top variants the fingerprint is a
function of the content fields only and never of the name (Base has no name
field at all); Custom — like CustomTop — folds its name into its
fingerprint. -/
theorem fingerprint_name_independence (n n' u pth : String) (pkgs vols ports : List String) :
    (Layer.dependency n pkgs vols ports).GetHash = (Layer.dependency n' pkgs vols ports).GetHash ∧
    (Layer.top n u pth vols ports).GetHash = (Layer.top n' u pth vols ports).GetHash :=
  ⟨rfl, rfl⟩

/-- C4 counterexample: changing a `CustomLayer`'s instruction list from
`["ab"]` to `["a", "b"]` produces a different list but the same fingerprint,
because the fields are joined with an empty separator before hashing. -/
theorem content_sensitivity_cex :
    (Layer.custom "x" ["ab"] [] []).GetHash = (Layer.custom "x" ["a", "b"] [] []).GetHash ∧
    (["ab"] : List String) ≠ ["a", "b"] := by
  constructor
  · decide
  · decide

/-- C4 (amended): for every layer variant, changing its instructions,
volumes, or ports changes the layer's fingerprint hash-input whenever the
joined field strings differ (distinct lists whose joins coincide, as in the
counterexample, share a fingerprint); and any change of a layer's fingerprint
string changes the stack-level hash input — the fingerprint concatenation
from which the tag is computed — for any stack containing the layer at that
position. -/
theorem content_sensitivity_amended :
    (∀ (img : String) (v p v' p' : List String),
        goJoin v "," ++ goJoin p "," ≠ goJoin v' "," ++ goJoin p' "," →
        (Layer.base img v p).hashInput ≠ (Layer.base img v' p').hashInput) ∧
    (∀ (n n' : String) (pk v p pk' v' p' : List String),
        goJoin pk "," ++ goJoin v "," ++ goJoin p "," ≠
          goJoin pk' "," ++ goJoin v' "," ++ goJoin p' "," →
        (Layer.dependency n pk v p).hashInput ≠ (Layer.dependency n' pk' v' p').hashInput) ∧
    (∀ (n : String) (c v p c' v' p' : List String),
        goJoin c "" ++ goJoin v "" ++ goJoin p "" ≠ goJoin c' "" ++ goJoin v' "" ++ goJoin p' "" →
        (Layer.custom n c v p).hashInput ≠ (Layer.custom n c' v' p').hashInput) ∧
    (∀ (n n' u pth : String) (v p v' p' : List String),
        goJoin v "," ++ goJoin p "," ≠ goJoin v' "," ++ goJoin p' "," →
        (Layer.top n u pth v p).hashInput ≠ (Layer.top n' u pth v' p').hashInput) ∧
    (∀ (n key : String) (c e c' e' : List String),
        goJoin c "" ++ goJoin e "" ≠ goJoin c' "" ++ goJoin e' "" →
        (Layer.customTop n c e key).hashInput ≠ (Layer.customTop n c' e' key).hashInput) ∧
    (∀ (base l l' : Layer) (pre post : List Layer),
        l.GetHash ≠ l'.GetHash →
        String.join ((base :: (pre ++ l :: post)).map Layer.GetHash) ≠
          String.join ((base :: (pre ++ l' :: post)).map Layer.GetHash)) := by
  refine ⟨?_, ?_, ?_, ?_, ?_, ?_⟩
  · intro img v p v' p' hne heq
    apply hne
    have hd := congrArg String.data heq
    simp only [Layer.hashInput, String.data_append, List.append_assoc] at hd
    have hd' := List.append_cancel_left hd
    apply String.ext
    simp only [String.data_append, List.append_assoc]
    exact hd'
  · intro n n' pk v p pk' v' p' hne heq
    apply hne
    have hd := congrArg String.data heq
    simp only [Layer.hashInput, String.data_append, List.append_assoc] at hd
    apply String.ext
    simp only [String.data_append, List.append_assoc]
    exact hd
  · intro n c v p c' v' p' hne heq
    apply hne
    have hd := congrArg String.data heq
    simp only [Layer.hashInput, String.data_append, List.append_assoc] at hd
    have hd' := List.append_cancel_left hd
    apply String.ext
    simp only [String.data_append, List.append_assoc]
    exact hd'
  · intro n n' u pth v p v' p' hne heq
    apply hne
    have hd := congrArg String.data heq
    simp only [Layer.hashInput, String.data_append, List.append_assoc] at hd
    have hd' := List.append_cancel_left (List.append_cancel_left (List.append_cancel_left hd))
    apply String.ext
    simp only [String.data_append, List.append_assoc]
    exact hd'
  · intro n key c e c' e' hne heq
    apply hne
    have hd := congrArg String.data heq
    simp only [Layer.hashInput, String.data_append, List.append_assoc] at hd
    have hd' := List.append_cancel_left (List.append_cancel_left hd)
    apply String.ext
    simp only [String.data_append, List.append_assoc]
    exact hd'
  · intro base l l' pre post hne heq
    apply hne
    have hd := congrArg String.data heq
    rw [join_data, join_data] at hd
    simp only [List.map_cons, List.map_append, List.flatten_cons, List.flatten_append,
      List.append_assoc] at hd
    have h1 := List.append_cancel_left hd
    have h2 := List.append_cancel_left h1
    have h3 := (List.append_inj h2 (by rw [getHash_data_length, getHash_data_length])).1
    exact String.ext h3

theorem build_not_in_runContainer (eng : Engine) (img : String) (v p : List String)
    (n : String) : Call.build n ∉ (runContainer eng img v p).1 := by
  unfold runContainer
  cases hc : eng.containerCreate img (buildPortMaps p) v with
  | error e => simp [hc]
  | ok cid =>
    cases hs : eng.containerStart cid with
    | none =>
      cases hw : eng.containerWait cid with
      | error e => simp [hc, hs, hw]
      | ok st => simp [hc, hs, hw]
    | some e => simp [hc, hs]

/-- C2: in every run in which the image-existence query for the computed tag
returns true, the build step is never invoked: `BuildAndRun` proceeds
directly to running the container without calling `buildImage`. -/
theorem cache_short_circuit (eng : Engine) (base : Layer) (selected : List Layer)
    (hfound : imageExists (eng.inspectImage ("aig-image:" ++ calculateTag base selected)) =
      .ok true) :
    (BuildAndRun eng base selected).1 =
      Call.inspect ("aig-image:" ++ calculateTag base selected) ::
        (runContainer eng ("aig-image:" ++ calculateTag base selected)
          (base.GetVolumes ++ selected.flatMap Layer.GetVolumes)
          (base.GetPorts ++ selected.flatMap Layer.GetPorts)).1 ∧
    ∀ n, Call.build n ∉ (BuildAndRun eng base selected).1 := by
  have h1 : (BuildAndRun eng base selected).1 =
      Call.inspect ("aig-image:" ++ calculateTag base selected) ::
        (runContainer eng ("aig-image:" ++ calculateTag base selected)
          (base.GetVolumes ++ selected.flatMap Layer.GetVolumes)
          (base.GetPorts ++ selected.flatMap Layer.GetPorts)).1 := by
    simp [BuildAndRun, hfound]
  refine ⟨h1, ?_⟩
  intro n
  rw [h1]
  simp [build_not_in_runContainer]

/-- Witness for C2 at a concrete engine and stack. -/
theorem cache_short_circuit_witness :
    imageExists (engFound.inspectImage
        ("aig-image:" ++ calculateTag (Layer.base "ubuntu:22.04" [] []) [])) = .ok true ∧
    ∀ n, Call.build n ∉ (BuildAndRun engFound (Layer.base "ubuntu:22.04" [] []) []).1 :=
  ⟨rfl, (cache_short_circuit engFound (Layer.base "ubuntu:22.04" [] []) [] rfl).2⟩

/-- C7: a not-found response from the image-existence query is a normal cache
miss — `imageExists` yields `(false, nil)` and the run proceeds to build —
while any other query error is returned to the caller and aborts the run
before any build, create, or start is attempted. -/
theorem cache_query_error_handling :
    (∀ (eng : Engine) (base : Layer) (selected : List Layer),
        eng.inspectImage ("aig-image:" ++ calculateTag base selected) = some .notFound →
        imageExists (eng.inspectImage ("aig-image:" ++ calculateTag base selected)) =
          .ok false ∧
        (BuildAndRun eng base selected).1.take 2 =
          [Call.inspect ("aig-image:" ++ calculateTag base selected),
           Call.build ("aig-image:" ++ calculateTag base selected)]) ∧
    (∀ (eng : Engine) (base : Layer) (selected : List Layer) (msg : String),
        eng.inspectImage ("aig-image:" ++ calculateTag base selected) = some (.other msg) →
        BuildAndRun eng base selected =
          ([Call.inspect ("aig-image:" ++ calculateTag base selected)],
           .error (.other msg))) := by
  constructor
  · intro eng base selected hnf
    have hie : imageExists (eng.inspectImage ("aig-image:" ++ calculateTag base selected)) =
        .ok false := by rw [hnf]; rfl
    refine ⟨hie, ?_⟩
    simp only [BuildAndRun, hie]
    cases hb : eng.imageBuild (generateDockerfile base selected)
        ("aig-image:" ++ calculateTag base selected) with
    | none => simp [hb]
    | some e => simp [hb]
  · intro eng base selected msg hother
    have hie : imageExists (eng.inspectImage ("aig-image:" ++ calculateTag base selected)) =
        .error (.other msg) := by rw [hother]; rfl
    simp only [BuildAndRun, hie]

/-- Witness for C7 at concrete engines and a concrete stack. -/
theorem cache_query_error_handling_witness :
    engMiss.inspectImage ("aig-image:" ++ calculateTag (Layer.base "u" [] []) []) =
      some .notFound ∧
    (imageExists (engMiss.inspectImage
        ("aig-image:" ++ calculateTag (Layer.base "u" [] []) [])) = .ok false ∧
      (BuildAndRun engMiss (Layer.base "u" [] []) []).1.take 2 =
        [Call.inspect ("aig-image:" ++ calculateTag (Layer.base "u" [] []) []),
         Call.build ("aig-image:" ++ calculateTag (Layer.base "u" [] []) [])]) ∧
    engInspectFail.inspectImage ("aig-image:" ++ calculateTag (Layer.base "u" [] []) []) =
      some (.other "transport down") ∧
    BuildAndRun engInspectFail (Layer.base "u" [] []) [] =
      ([Call.inspect ("aig-image:" ++ calculateTag (Layer.base "u" [] []) [])],
       .error (.other "transport down")) :=
  ⟨rfl, cache_query_error_handling.1 engMiss (Layer.base "u" [] []) [] rfl,
   rfl, cache_query_error_handling.2 engInspectFail (Layer.base "u" [] []) [] "transport down" rfl⟩

/-- Witness for C4 (amended): one concrete instance of every per-variant
clause and of the stack-level clause. -/
theorem content_sensitivity_amended_witness :
    ((goJoin ["va"] "," ++ goJoin [] "," : String) ≠ goJoin ["vb"] "," ++ goJoin [] ",") ∧
    (Layer.base "u" ["va"] []).hashInput ≠ (Layer.base "u" ["vb"] []).hashInput ∧
    ((goJoin ["curl"] "," ++ goJoin [] "," ++ goJoin [] "," : String) ≠
        goJoin ["vim"] "," ++ goJoin [] "," ++ goJoin [] ",") ∧
    (Layer.dependency "d1" ["curl"] [] []).hashInput ≠
      (Layer.dependency "d2" ["vim"] [] []).hashInput ∧
    ((goJoin ["RUN a"] "" ++ goJoin [] "" ++ goJoin [] "" : String) ≠
        goJoin ["RUN b"] "" ++ goJoin [] "" ++ goJoin [] "") ∧
    (Layer.custom "w" ["RUN a"] [] []).hashInput ≠ (Layer.custom "w" ["RUN b"] [] []).hashInput ∧
    ((goJoin ["vc"] "," ++ goJoin [] "," : String) ≠ goJoin ["vd"] "," ++ goJoin [] ",") ∧
    (Layer.top "t1" "url" "/bin" ["vc"] []).hashInput ≠
      (Layer.top "t2" "url" "/bin" ["vd"] []).hashInput ∧
    ((goJoin ["RUN c"] "" ++ goJoin [] "" : String) ≠ goJoin ["RUN d"] "" ++ goJoin [] "") ∧
    (Layer.customTop "ct" ["RUN c"] [] "k").hashInput ≠
      (Layer.customTop "ct" ["RUN d"] [] "k").hashInput ∧
    (Layer.dependency "d1" ["curl"] [] []).GetHash ≠
      (Layer.dependency "d2" ["vim"] [] []).GetHash ∧
    String.join ((Layer.base "u" [] [] ::
        ([] ++ Layer.dependency "d1" ["curl"] [] [] :: [])).map Layer.GetHash) ≠
      String.join ((Layer.base "u" [] [] ::
        ([] ++ Layer.dependency "d2" ["vim"] [] [] :: [])).map Layer.GetHash) := by
  have hh : (Layer.dependency "d1" ["curl"] [] []).GetHash ≠
      (Layer.dependency "d2" ["vim"] [] []).GetHash := by decide
  exact ⟨by decide, content_sensitivity_amended.1 "u" ["va"] [] ["vb"] [] (by decide),
    by decide, content_sensitivity_amended.2.1 "d1" "d2" ["curl"] [] [] ["vim"] [] [] (by decide),
    by decide, content_sensitivity_amended.2.2.1 "w" ["RUN a"] [] [] ["RUN b"] [] [] (by decide),
    by decide, content_sensitivity_amended.2.2.2.1 "t1" "t2" "url" "/bin" ["vc"] [] ["vd"] []
      (by decide),
    by decide, content_sensitivity_amended.2.2.2.2.1 "ct" "k" ["RUN c"] [] ["RUN d"] []
      (by decide),
    hh, content_sensitivity_amended.2.2.2.2.2 (Layer.base "u" [] []) _ _ [] [] hh⟩

theorem resolveLayers_error (reg : List (String × Layer)) (bad : String) (post : List String) :
    ∀ pre : List String, (∀ n ∈ pre, (reg.lookup (goTrimSpace n)).isSome = true) →
      reg.lookup (goTrimSpace bad) = none →
      resolveLayers reg (pre ++ bad :: post) =
        .error ("layer " ++ goTrimSpace bad ++ " not found") := by
  intro pre
  induction pre with
  | nil =>
    intro _ hbad
    simp [resolveLayers, Get, hbad]
  | cons n pre ih =>
    intro hpre hbad
    have hn := hpre n (by simp)
    obtain ⟨l, hl⟩ := Option.isSome_iff_exists.mp hn
    have hrec := ih (fun m hm => hpre m (by simp [hm])) hbad
    simp [resolveLayers, Get, hl, hrec]

/-- C6: if any requested layer name is absent from the registry, stack
assembly fails with the registry's not-found error at the first unresolved
name, no partial stack is produced, and no builder (engine) call is made. -/
theorem unknown_layer (eng : Engine) (reg : List (String × Layer)) (baseImage : String)
    (pre post : List String) (bad topName : String) (vols ports : List String)
    (hpre : ∀ n ∈ pre, (reg.lookup (goTrimSpace n)).isSome = true)
    (hbad : reg.lookup (goTrimSpace bad) = none) :
    resolveLayers reg (pre ++ bad :: post) =
      .error ("layer " ++ goTrimSpace bad ++ " not found") ∧
    runE eng reg baseImage (pre ++ bad :: post) topName vols ports =
      ([], .error (.resolution ("layer " ++ goTrimSpace bad ++ " not found"))) := by
  have hres := resolveLayers_error reg bad post pre hpre hbad
  refine ⟨hres, ?_⟩
  simp [runE, hres]

/-- Witness for C6: resolving `["python", "nope", "node"]` against the default
registry fails on `"nope"` with no engine call. -/
theorem unknown_layer_witness :
    (∀ n ∈ ["python"], (defaultRegistry.lookup (goTrimSpace n)).isSome = true) ∧
    defaultRegistry.lookup (goTrimSpace "nope") = none ∧
    resolveLayers defaultRegistry (["python"] ++ "nope" :: ["node"]) =
      .error ("layer " ++ goTrimSpace "nope" ++ " not found") ∧
    runE engFound defaultRegistry "ubuntu:22.04" (["python"] ++ "nope" :: ["node"]) "" [] [] =
      ([], .error (.resolution ("layer " ++ goTrimSpace "nope" ++ " not found"))) := by
  have h := unknown_layer engFound defaultRegistry "ubuntu:22.04" ["python"] ["node"]
    "nope" "" [] [] (by decide) (by decide)
  exact ⟨by decide, by decide, h.1, h.2⟩

/-- C5: port parsing — a `"host:container"` spec (one colon, nonempty host)
exposes the container port, appending `"/tcp"` when the container part has no
protocol, and binds the host part to it; a colon-free spec without a protocol
exposes `port/tcp` with no binding; a colon-free spec with an explicit
protocol is exposed unchanged with no binding. -/
theorem port_parsing :
    (∀ (p hp cp : String), goSplitColon p = [hp, cp] → hp ≠ "" →
        buildPortMaps [p] =
          ⟨[if goContainsChar cp '/' then cp else cp ++ "/tcp"],
           [(if goContainsChar cp '/' then cp else cp ++ "/tcp", hp)]⟩) ∧
    (∀ (p c : String), goSplitColon p = [c] → goContainsChar c '/' = false →
        buildPortMaps [p] = ⟨[c ++ "/tcp"], []⟩) ∧
    (∀ (p c : String), goSplitColon p = [c] → goContainsChar c '/' = true →
        buildPortMaps [p] = ⟨[c], []⟩) := by
  refine ⟨?_, ?_, ?_⟩
  · intro p hp cp h hne
    simp [buildPortMaps, parsePortSpec, h, hne]
  · intro p c h hc
    simp [buildPortMaps, parsePortSpec, h, hc]
  · intro p c h hc
    simp [buildPortMaps, parsePortSpec, h, hc]

/-- Witness for C5 at the spec's three examples. -/
theorem port_parsing_witness :
    goSplitColon "8080:80" = ["8080", "80"] ∧
    buildPortMaps ["8080:80"] = ⟨["80/tcp"], [("80/tcp", "8080")]⟩ ∧
    goSplitColon "80" = ["80"] ∧
    buildPortMaps ["80"] = ⟨["80/tcp"], []⟩ ∧
    goSplitColon "53/udp" = ["53/udp"] ∧
    buildPortMaps ["53/udp"] = ⟨["53/udp"], []⟩ :=
  ⟨by decide, port_parsing.1 "8080:80" "8080" "80" (by decide) (by decide),
   by decide, port_parsing.2.1 "80" "80" (by decide) (by decide),
   by decide, port_parsing.2.2 "53/udp" "53/udp" (by decide) (by decide)⟩

/-- C10: a port spec with two or more colons takes only the text before the
first colon as the container port (with `"/tcp"` appended when it has no
`"/"`), creates no host binding, and silently discards the rest. -/
theorem multi_colon_port_spec (p fst : String) (rest : List String)
    (h : goSplitColon p = fst :: rest) (hlen : 2 ≤ rest.length) :
    buildPortMaps [p] =
      ⟨[if goContainsChar fst '/' then fst else fst ++ "/tcp"], []⟩ := by
  have hne : ¬(rest.length = 1) := by omega
  simp [buildPortMaps, parsePortSpec, h, hne]

/-- Witness for C10 at `"1.2.3.4:8080:80"`. -/
theorem multi_colon_port_spec_witness :
    goSplitColon "1.2.3.4:8080:80" = ["1.2.3.4", "8080", "80"] ∧
    buildPortMaps ["1.2.3.4:8080:80"] = ⟨["1.2.3.4/tcp"], []⟩ :=
  ⟨by decide, multi_colon_port_spec "1.2.3.4:8080:80" "1.2.3.4" ["8080", "80"]
    (by decide) (by decide)⟩
